import Mathlib

set_option autoImplicit false

/-!
Shallow embedding of the versioned-file / pull-request core of the
Version-Control web application (s3Service, pullRequestService,
repositoryService, notificationService).

Modelling conventions, fixed once and used throughout:
* ISO-8601 millisecond timestamps are strings whose lexicographic order equals
  chronological order; they are modelled as naturals.  `new Date().toISOString()`
  becomes an explicit `now : Nat` parameter of every operation that stamps time.
* S3 object keys follow the blob key scheme
  (`repositories/{repoId}/files/{fileName}`,
  `repositories/{repoId}/history/{fileName}/{ts}.txt`,
  `repositories/{repoId}/commits/{fileName}/{ts}.json`,
  `repositories/{repoId}/pending/{fileName}/{ts}.txt`,
  `repositories/{repoId}/pending-meta/{fileName}/{ts}.json`).
  They are modelled as a structured type whose constructors mirror the five
  templates; for slash-free repository ids and file names the string templates
  are injective exactly as the constructors are.
* File bodies committed through the paths under claim are strings
  (TextEncoder/TextDecoder round-trip is the identity on them); JSON bodies are
  modelled as the structured records the source serializes.
* The ambient authenticated user (authService.getCurrentUser) is an explicit
  `Option User` parameter, and the s3 client initialization flag an explicit
  `Bool` parameter.
* The Firestore document store is modelled as association lists from document
  id to record; the S3 bucket as an association list from key to object where
  a put replaces the entry at its key.
-/

namespace VC

/-- Caller identity as supplied by the auth provider: uid plus optional email
and display name (absent or empty email is modelled as `none`, matching the
falsy check the source performs on it). -/
structure User where
  uid : String
  email : Option String
  displayName : Option String
deriving DecidableEq, Repr

/-- The expression `currentUser.email || currentUser.uid` used by the source
for author fields. -/
def userLabel (u : User) : String := u.email.getD u.uid

/-- S3 keys, structured by the blob key scheme of s3Service (see module
comment).  `file` is the current-content key, `history` a snapshot key,
`commits` a commit-metadata key, `pending` a staged-change key and
`pendingMeta` its metadata key. -/
inductive S3Key where
  | file (repoId fileName : String)
  | history (repoId fileName : String) (ts : Nat)
  | commits (repoId fileName : String) (ts : Nat)
  | pending (repoId fileName : String) (ts : Nat)
  | pendingMeta (repoId fileName : String) (ts : Nat)
deriving DecidableEq, Repr

/-- The commit-metadata JSON written by commitFileVersion /
uploadFileWithCommit: message, timestamp, author, optional previous-version
back-pointer. -/
structure CommitData where
  message : String
  timestamp : Nat
  author : String
  previousVersion : Option Nat
deriving DecidableEq, Repr

/-- The pending-commit metadata JSON written by createPendingCommit and
rewritten by processPendingCommit.  The processing fields are absent
(`none`) until the request is processed. -/
structure PendingMetaData where
  message : String
  timestamp : Nat
  author : String
  authorId : String
  fileName : String
  status : String
  processedBy : Option String
  processedAt : Option Nat
  comment : Option String
deriving DecidableEq, Repr

/-- Body of a stored S3 object: raw text, or one of the two JSON documents the
application serializes. -/
inductive S3Body where
  | text (content : String)
  | commitJson (data : CommitData)
  | pendingMetaJson (data : PendingMetaData)
deriving DecidableEq, Repr

/-- TextDecoder applied to the stored bytes.  For text bodies this is the
stored string; JSON bodies decode to their serialization, rendered here via
`reprStr` (no operation under claim ever decodes a JSON body as text). -/
def S3Body.decode : S3Body → String
  | .text c => c
  | .commitJson d => reprStr d
  | .pendingMetaJson d => reprStr d

@[simp] theorem decode_text (c : String) : (S3Body.text c).decode = c := rfl

/-- JSON.parse of a body, expecting commit metadata; parsing a non-JSON or
differently-shaped body fails (the source maps the failure to null). -/
def S3Body.parseCommit : S3Body → Option CommitData
  | .commitJson d => some d
  | _ => none

/-- JSON.parse of a body, expecting pending-commit metadata. -/
def S3Body.parsePendingMeta : S3Body → Option PendingMetaData
  | .pendingMetaJson d => some d
  | _ => none

/-- A stored S3 object: body, content type, the put time (S3's LastModified)
and the descriptor bag (Metadata) attached by the put. -/
structure S3Object where
  body : S3Body
  contentType : String
  lastModified : Nat
  meta : List (String × String)
deriving DecidableEq, Repr

/-- The bucket: association list from key to object.  A put replaces the
entry stored at its key. -/
abbrev S3State := List (S3Key × S3Object)

/-- PutObjectCommand: overwrite whatever the bucket stores at the key. -/
def putObject (σ : S3State) (k : S3Key) (o : S3Object) : S3State :=
  (k, o) :: σ.filter (fun p => !(decide (p.1 = k)))

/-- GetObjectCommand / HeadObjectCommand: fetch the object stored at the key,
if any. -/
def getObject (σ : S3State) (k : S3Key) : Option S3Object :=
  (σ.find? (fun p => decide (p.1 = k))).map (fun p => p.2)

theorem getObject_putObject_self (σ : S3State) (k : S3Key) (o : S3Object) :
    getObject (putObject σ k o) k = some o := by
  simp [getObject, putObject, List.find?]

theorem getObject_putObject_ne (σ : S3State) (k k' : S3Key) (o : S3Object)
    (h : k' ≠ k) : getObject (putObject σ k o) k' = getObject σ k' := by
  simp only [getObject, putObject]
  congr 1
  rw [List.find?_cons_of_neg _ (by simpa using Ne.symm h), List.find?_filter]
  induction σ with
  | nil => rfl
  | cons p σ ih =>
    by_cases hp : p.1 = k'
    · have hpk : ¬ p.1 = k := fun hh => h (by rw [← hp, hh])
      rw [List.find?_cons_of_pos _ (by simp [hp, hpk, h]),
        List.find?_cons_of_pos _ (by simp [hp])]
    · rw [List.find?_cons_of_neg _ (by simp [hp]),
        List.find?_cons_of_neg _ (by simp [hp]), ih]

/-- Result shape of uploadFileToS3. -/
structure UploadResult where
  success : Bool
  url : Option String
  error : Option String
deriving DecidableEq, Repr

/-- Result shape of commitFileVersion / uploadFileWithCommit. -/
structure CommitResult where
  success : Bool
  timestamp : Option Nat
  error : Option String
deriving DecidableEq, Repr

/-- Result shape of getFileVersion / downloadFileFromS3 (content field). -/
structure ContentResult where
  success : Bool
  content : Option String
  error : Option String
deriving DecidableEq, Repr

/-- Result shape of operations that report only success/error. -/
structure SimpleResult where
  success : Bool
  error : Option String
deriving DecidableEq, Repr

/-- Extension allow-list used by isTextFile. -/
def textExtensions : List String :=
  [".txt", ".md", ".json", ".js", ".jsx", ".ts", ".tsx", ".html", ".css",
   ".scss", ".xml", ".yaml", ".yml", ".csv", ".log", ".sh", ".bat", ".ps1",
   ".py", ".rb", ".php", ".java", ".c", ".cpp", ".h", ".cs", ".go", ".rs",
   ".swift", ".kt", ".sql", ".gitignore", ".env", ".config", ".toml"]

/-- Classifies a file as text purely by extension against the fixed
allow-list (case-insensitive). -/
def isTextFile (fileName : String) : Bool :=
  textExtensions.any (fun ext => fileName.toLower.endsWith ext)

/-- uploadFileToS3: writes the current-content blob only (no history entry).
`init` is the s3 initialization flag, `ambient` the authService current user,
`now` the wall clock.  Content-type detection and the empty-content check
follow the source; the signed-url generation has no effect on the store and
is modelled as an opaque success. -/
def uploadFileToS3 (init : Bool) (ambient : Option User) (now : Nat)
    (σ : S3State) (repoId fileName fileContent contentType : String) :
    UploadResult × S3State :=
  if ¬init then (⟨false, none, some "AWS S3 is not properly configured"⟩, σ)
  else
    match ambient with
    | none => (⟨false, none, some "User not authenticated"⟩, σ)
    | some u =>
      if fileContent = "" then
        (⟨false, none, some "File content cannot be empty"⟩, σ)
      else
        let finalContentType :=
          if contentType = "" ∨ contentType = "text/plain" then
            if isTextFile fileName then "text/plain"
            else "application/octet-stream"
          else contentType
        let o : S3Object :=
          { body := .text fileContent
            contentType := finalContentType
            lastModified := now
            meta := [("user-id", u.uid), ("uploaded-at", toString now),
                     ("original-filename", fileName)] }
        (⟨true, some "signed-url", none⟩,
          putObject σ (.file repoId fileName) o)

/-- downloadFileFromS3 (and its alias getFileContent): fetch the
current-content blob and decode it as text (string contents under claim). -/
def downloadFileFromS3 (init : Bool) (σ : S3State)
    (repoId fileName : String) : ContentResult :=
  if ¬init then ⟨false, none, some "AWS S3 is not properly configured"⟩
  else
    match getObject σ (.file repoId fileName) with
    | none => ⟨false, none, some "NoSuchKey"⟩
    | some o => ⟨true, some o.body.decode, none⟩

/-- getFileContent is an alias for downloadFileFromS3. -/
def getFileContent (init : Bool) (σ : S3State)
    (repoId fileName : String) : ContentResult :=
  downloadFileFromS3 init σ repoId fileName

/-- commitFileVersion: the three sequential writes of a commit — overwrite
current content, write the history snapshot at `now`, write the commit
metadata at `now` — returning the new timestamp. -/
def commitFileVersion (init : Bool) (ambient : Option User) (now : Nat)
    (σ : S3State) (repoId fileName fileContent commitMessage : String)
    (previousVersionTimestamp : Option Nat) : CommitResult × S3State :=
  if ¬init then (⟨false, none, some "AWS S3 is not properly configured"⟩, σ)
  else
    match ambient with
    | none => (⟨false, none, some "User not authenticated"⟩, σ)
    | some u =>
      let timestamp := now
      let fileObj : S3Object :=
        { body := .text fileContent
          contentType := "text/plain"
          lastModified := now
          meta := [("user-id", u.uid), ("user-email", u.email.getD ""),
                   ("uploaded-at", toString timestamp),
                   ("original-filename", fileName)] }
      let σ1 := putObject σ (.file repoId fileName) fileObj
      let historyObj : S3Object :=
        { body := .text fileContent
          contentType := "text/plain"
          lastModified := now
          meta := [("user-id", u.uid), ("user-email", u.email.getD ""),
                   ("commit-message", commitMessage),
                   ("timestamp", toString timestamp),
                   ("previous-version",
                     (previousVersionTimestamp.map toString).getD "")] }
      let σ2 := putObject σ1 (.history repoId fileName timestamp) historyObj
      let commitObj : S3Object :=
        { body := .commitJson
            { message := commitMessage
              timestamp := timestamp
              author := userLabel u
              previousVersion := previousVersionTimestamp }
          contentType := "application/json"
          lastModified := now
          meta := [] }
      let σ3 := putObject σ2 (.commits repoId fileName timestamp) commitObj
      (⟨true, some timestamp, none⟩, σ3)

/-- An entry returned by getFileCommitHistory: the parsed commit metadata
spread together with the id recovered from the key (the timestamp). -/
structure CommitEntry where
  message : String
  timestamp : Nat
  author : String
  previousVersion : Option Nat
  id : Nat
deriving DecidableEq, Repr

/-- Result shape of getFileCommitHistory. -/
structure HistoryResult where
  success : Bool
  commits : Option (List CommitEntry)
  error : Option String
deriving DecidableEq, Repr

/-- ListObjectsV2 over the commit-metadata keys of one file. -/
def commitObjectsOf (σ : S3State) (repoId fileName : String) :
    List (S3Key × S3Object) :=
  σ.filter (fun p =>
    match p.1 with
    | .commits r f _ => decide (r = repoId) && decide (f = fileName)
    | _ => false)

/-- The timestamp component of a key (the last path segment with its
extension stripped), for keys that carry one. -/
def keyTimestamp : S3Key → Nat
  | .file _ _ => 0
  | .history _ _ ts => ts
  | .commits _ _ ts => ts
  | .pending _ _ ts => ts
  | .pendingMeta _ _ ts => ts

/-- Descending-by-timestamp comparison used by the history sort. -/
def commitEntryDesc (a b : CommitEntry) : Prop := b.timestamp ≤ a.timestamp

instance : DecidableRel commitEntryDesc := fun a b =>
  inferInstanceAs (Decidable (b.timestamp ≤ a.timestamp))

/-- getFileCommitHistory: list all commit-metadata blobs of the file, parse
each one (parse failures drop to null and are filtered out), attach the id
from the key, and sort by timestamp descending. -/
def getFileCommitHistory (init : Bool) (σ : S3State)
    (repoId fileName : String) : HistoryResult :=
  if ¬init then ⟨false, none, some "AWS S3 is not properly configured"⟩
  else
    let entries := (commitObjectsOf σ repoId fileName).filterMap
      (fun p => (p.2.body.parseCommit).map (fun d =>
        ({ message := d.message, timestamp := d.timestamp, author := d.author,
           previousVersion := d.previousVersion,
           id := keyTimestamp p.1 } : CommitEntry)))
    ⟨true, some (entries.insertionSort commitEntryDesc), none⟩

/-- getFileVersion: fetch one history (or pending) snapshot's bytes by exact
key and decode them as text. -/
def getFileVersion (init : Bool) (σ : S3State)
    (repoId fileName : String) (timestamp : Nat) (fromPending : Bool) :
    ContentResult :=
  if ¬init then ⟨false, none, some "AWS S3 is not properly configured"⟩
  else
    let key : S3Key :=
      if fromPending then .pending repoId fileName timestamp
      else .history repoId fileName timestamp
    match getObject σ key with
    | none => ⟨false, none, some "Version not found"⟩
    | some o => ⟨true, some o.body.decode, none⟩

/-- uploadFileWithCommit: upload the current content (via uploadFileToS3,
which authenticates against the ambient user), then write the history
snapshot and the commit metadata under the user passed as argument (falling
back to the ambient user), with no previous-version back-pointer. -/
def uploadFileWithCommit (init : Bool) (userArg ambient : Option User)
    (now : Nat) (σ : S3State)
    (repoId fileName fileContent commitMessage : String) :
    CommitResult × S3State :=
  if ¬init then (⟨false, none, some "AWS S3 is not properly configured"⟩, σ)
  else
    match userArg.orElse (fun _ => ambient) with
    | none => (⟨false, none, some "User not authenticated"⟩, σ)
    | some u =>
      let timestamp := now
      let (uploadResult, σ1) :=
        uploadFileToS3 init ambient now σ repoId fileName fileContent
          "text/plain"
      if ¬uploadResult.success then
        (⟨false, none,
          some (uploadResult.error.getD "Failed to upload file content")⟩, σ1)
      else
        let historyObj : S3Object :=
          { body := .text fileContent
            contentType := "text/plain"
            lastModified := now
            meta := [("user-id", u.uid), ("user-email", u.email.getD ""),
                     ("commit-message", commitMessage),
                     ("timestamp", toString timestamp)] }
        let σ2 := putObject σ1 (.history repoId fileName timestamp) historyObj
        let commitObj : S3Object :=
          { body := .commitJson
              { message := commitMessage
                timestamp := timestamp
                author := userLabel u
                previousVersion := none }
            contentType := "application/json"
            lastModified := now
            meta := [] }
        let σ3 := putObject σ2 (.commits repoId fileName timestamp) commitObj
        (⟨true, some timestamp, none⟩, σ3)

/-- Locale rendering of a timestamp inside the restore commit message
(`new Date(timestamp).toLocaleString()`), modelled as decimal rendering; no
claim inspects it. -/
def localeString (ts : Nat) : String := toString ts

/-- restoreFileVersion: fetch the named historical version's bytes, then
commit them again with an auto-annotated message — never a rewrite of
history. -/
def restoreFileVersion (init : Bool) (ambient : Option User) (now : Nat)
    (σ : S3State) (repoId fileName : String) (timestamp : Nat)
    (commitMessage : String) : SimpleResult × S3State :=
  if ¬init then (⟨false, some "AWS S3 is not properly configured"⟩, σ)
  else
    match ambient with
    | none => (⟨false, some "User not authenticated"⟩, σ)
    | some _ =>
      let versionResult := getFileVersion init σ repoId fileName timestamp false
      match versionResult.content with
      | none =>
        (⟨false,
          some (versionResult.error.getD "Failed to retrieve file version")⟩, σ)
      | some content =>
        if ¬versionResult.success ∨ content = "" then
          (⟨false,
            some (versionResult.error.getD "Failed to retrieve file version")⟩,
           σ)
        else
          let restoreCommitMessage :=
            commitMessage ++ " (from " ++ localeString timestamp ++ ")"
          let (commitResult, σ') :=
            commitFileVersion init ambient now σ repoId fileName content
              restoreCommitMessage none
          if ¬commitResult.success then
            (⟨false,
              some (commitResult.error.getD "Failed to create restore commit")⟩,
             σ')
          else (⟨true, none⟩, σ')

/-- The record listRepositoryFiles builds for each object under the
repository's files keys.  The source sets name, path, size, contentType,
createdAt (from the object's S3 LastModified) and downloadUrl; it sets no
`lastModified` field, so reading `.lastModified` on such a record yields
undefined — modelled by the field being `none` here.  The signed download
url is opaque and modelled as a fixed string. -/
structure FileInfo where
  name : String
  path : S3Key
  size : Nat
  contentType : String
  createdAt : Nat
  downloadUrl : String
  lastModified : Option Nat
deriving DecidableEq, Repr

/-- Byte length of a stored body (S3's item.Size); text bodies under claim. -/
def S3Body.size : S3Body → Nat
  | .text c => c.utf8ByteSize
  | .commitJson d => (reprStr d).utf8ByteSize
  | .pendingMetaJson d => (reprStr d).utf8ByteSize

/-- ListObjectsV2 over the current-content keys of one repository. -/
def repoFileObjects (σ : S3State) (repoId : String) :
    List (S3Key × S3Object) :=
  σ.filter (fun p =>
    match p.1 with
    | .file r _ => decide (r = repoId)
    | _ => false)

/-- The file-name component of a current-content key (the key's last path
segment). -/
def keyFileName : S3Key → String
  | .file _ f => f
  | .history _ f _ => f
  | .commits _ f _ => f
  | .pending _ f _ => f
  | .pendingMeta _ f _ => f

/-- Result shape of listRepositoryFiles. -/
structure FilesResult where
  success : Bool
  files : Option (List FileInfo)
  error : Option String
deriving DecidableEq, Repr

/-- listRepositoryFiles: list the current-content objects of the repository
and build a FileInfo for each.  Note that the object's LastModified lands in
`createdAt` and that no `lastModified` field is produced. -/
def listRepositoryFiles (init : Bool) (σ : S3State) (repoId : String) :
    FilesResult :=
  if ¬init then ⟨false, none, some "AWS S3 is not properly configured"⟩
  else
    let files := (repoFileObjects σ repoId).map (fun p =>
      ({ name := keyFileName p.1
         path := p.1
         size := p.2.body.size
         contentType := p.2.contentType
         createdAt := p.2.lastModified
         downloadUrl := "signed-url"
         lastModified := none } : FileInfo))
    ⟨true, some files, none⟩

/-- Result shape of getChangedFiles. -/
structure ChangedFilesResult where
  success : Bool
  files : Option (List String)
  error : Option String
deriving DecidableEq, Repr

/-- getChangedFiles: list the files of both repositories; a source file is
reported as changed when it is absent from the target listing or when the
`lastModified` fields of the two records differ.  (The listing records carry
no `lastModified` field — see FileInfo — so the second disjunct compares
undefined with undefined.) -/
def getChangedFiles (ambient : Option User) (init : Bool) (σ : S3State)
    (sourceRepoId targetRepoId : String) : ChangedFilesResult :=
  match ambient with
  | none => ⟨false, none, some "User not authenticated"⟩
  | some _ =>
    let sourceFilesResult := listRepositoryFiles init σ sourceRepoId
    match sourceFilesResult.files with
    | none =>
      ⟨false, none,
        some (sourceFilesResult.error.getD
          "Failed to list source repository files")⟩
    | some sourceFiles =>
      let targetFilesResult := listRepositoryFiles init σ targetRepoId
      match targetFilesResult.files with
      | none =>
        ⟨false, none,
          some (targetFilesResult.error.getD
            "Failed to list target repository files")⟩
      | some targetFiles =>
        let changed := (sourceFiles.filter (fun sourceFile =>
          match targetFiles.find? (fun t => decide (t.name = sourceFile.name)) with
          | none => true
          | some targetFile =>
            decide (sourceFile.lastModified ≠ targetFile.lastModified))).map
          (fun f => f.name)
        ⟨true, some changed, none⟩

/-- Repository document as stored in the repositories collection. -/
structure Repository where
  name : String
  description : String
  ownerId : String
  createdAt : Nat
  updatedAt : Nat
  isPublic : Bool
  collaborators : Option (List String)
  forkedFrom : Option String
deriving DecidableEq, Repr

/-- A repository record together with its document id
(the source returns the flattened object with an id field). -/
structure RepositoryWithId where
  id : String
  repo : Repository
deriving DecidableEq, Repr

/-- Pull request status values. -/
inductive PRStatus where
  | «open»
  | merged
  | rejected
  | closed
deriving DecidableEq, Repr

/-- The status string as it appears in documents and template literals. -/
def PRStatus.str : PRStatus → String
  | .«open» => "open"
  | .merged => "merged"
  | .rejected => "rejected"
  | .closed => "closed"

/-- The createdBy sub-record of a pull request. -/
structure CreatedBy where
  id : String
  name : String
  email : String
deriving DecidableEq, Repr

/-- Pull request document as stored in the pullRequests collection. -/
structure PullRequest where
  title : String
  description : String
  sourceRepoId : String
  sourceRepoName : String
  targetRepoId : String
  targetRepoName : String
  targetOwnerId : String
  sourceBranch : Option String
  targetBranch : Option String
  status : PRStatus
  createdAt : Nat
  updatedAt : Nat
  createdBy : CreatedBy
  changedFiles : Option (List String)
deriving DecidableEq, Repr

/-- Notification document.  `createdBy` is set by createNotification but not
by the direct addDoc calls in pullRequestService, hence optional.  The
free-form details bag is modelled as a string-to-string association list. -/
structure NotificationDoc where
  userId : String
  type : String
  message : String
  details : List (String × String)
  read : Bool
  createdAt : Nat
  createdBy : Option String
deriving DecidableEq, Repr

/-- Fetch a document by id from a collection (association list). -/
def docGet {α : Type} (l : List (String × α)) (id : String) : Option α :=
  (l.find? (fun p => decide (p.1 = id))).map (fun p => p.2)

/-- updateDoc: apply an update to the document stored at the id. -/
def docUpdate {α : Type} (l : List (String × α)) (id : String) (f : α → α) :
    List (String × α) :=
  l.map (fun p => if p.1 = id then (p.1, f p.2) else p)

/-- The whole backing state: the three document collections under claim plus
the blob store. -/
structure World where
  repositories : List (String × Repository)
  pullRequests : List (String × PullRequest)
  notifications : List NotificationDoc
  s3 : S3State
deriving DecidableEq

/-- Result shape of getRepository. -/
structure RepoResult where
  success : Bool
  repository : Option RepositoryWithId
  error : Option String
deriving DecidableEq, Repr

/-- getRepository: fetch a repository record; a private repository read by a
caller who is neither owner nor collaborator succeeds with a redacted
projection (collaborator list cleared, no fork pointer) rather than
failing. -/
def getRepository (ambient : Option User) (w : World) (id : String) :
    RepoResult :=
  match ambient with
  | none => ⟨false, none, some "User not authenticated"⟩
  | some u =>
    match docGet w.repositories id with
    | none => ⟨false, none, some "Repository not found"⟩
    | some repository =>
      if ¬repository.isPublic ∧ repository.ownerId ≠ u.uid ∧
          ¬((repository.collaborators.getD []).contains u.uid) then
        ⟨true,
          some ⟨id,
            { name := repository.name
              description := repository.description
              ownerId := repository.ownerId
              createdAt := repository.createdAt
              updatedAt := repository.updatedAt
              isPublic := false
              collaborators := some []
              forkedFrom := none }⟩,
          none⟩
      else ⟨true, some ⟨id, repository⟩, none⟩

/-- Result shape of createNotification. -/
structure NotifResult where
  success : Bool
  notificationId : Option String
  error : Option String
deriving DecidableEq, Repr

/-- createNotification: append an unread notification document stamping the
ambient user as its creator. -/
def createNotification (ambient : Option User) (now : Nat) (w : World)
    (userId ntype message : String) (details : List (String × String)) :
    NotifResult × World :=
  if userId = "" then (⟨false, none, some "userId is required"⟩, w)
  else
    match ambient with
    | none => (⟨false, none, some "User not authenticated"⟩, w)
    | some u =>
      let doc : NotificationDoc :=
        { userId := userId
          type := ntype
          message := message
          details := details
          read := false
          createdAt := now
          createdBy := some u.uid }
      (⟨true, some "generated-id", none⟩,
        { w with notifications := w.notifications ++ [doc] })

/-- Result shape of createPendingCommit. -/
structure PendingCommitResult where
  success : Bool
  requestId : Option Nat
  error : Option String
deriving DecidableEq, Repr

/-- createPendingCommit: stage a non-owner collaborator's change as a pending
blob plus pending-metadata blob with status pending, then (best effort)
notify the repository owner. -/
def createPendingCommit (init : Bool) (ambient : Option User) (now : Nat)
    (w : World) (repoId fileName fileContent commitMessage : String) :
    PendingCommitResult × World :=
  if ¬init then (⟨false, none, some "AWS S3 is not properly configured"⟩, w)
  else
    match ambient with
    | none => (⟨false, none, some "User not authenticated"⟩, w)
    | some u =>
      let timestamp := now
      let pendingObj : S3Object :=
        { body := .text fileContent
          contentType := "text/plain"
          lastModified := now
          meta := [("user-id", u.uid), ("user-email", u.email.getD ""),
                   ("commit-message", commitMessage),
                   ("timestamp", toString timestamp)] }
      let σ1 := putObject w.s3 (.pending repoId fileName timestamp) pendingObj
      let metaData : PendingMetaData :=
        { message := commitMessage
          timestamp := timestamp
          author := userLabel u
          authorId := u.uid
          fileName := fileName
          status := "pending"
          processedBy := none
          processedAt := none
          comment := none }
      let σ2 := putObject σ1 (.pendingMeta repoId fileName timestamp)
        { body := .pendingMetaJson metaData
          contentType := "application/json"
          lastModified := now
          meta := [] }
      let w1 := { w with s3 := σ2 }
      let repoResult := getRepository (some u) w1 repoId
      let w2 :=
        match repoResult.repository with
        | some r =>
          if repoResult.success ∧ r.repo.ownerId ≠ u.uid then
            (createNotification (some u) now w1 r.repo.ownerId
              "commit_request"
              ((u.email.getD "A collaborator") ++
                " has submitted changes to " ++ fileName ++
                " for your approval")
              [("repositoryId", repoId), ("repositoryName", r.repo.name),
               ("fileName", fileName), ("commitTimestamp", toString timestamp),
               ("requesterId", u.uid),
               ("requesterEmail", u.email.getD "")]).2
          else w1
        | none => w1
      (⟨true, some timestamp, none⟩, w2)

/-- An entry returned by getPendingCommitRequests: the parsed pending
metadata spread together with the id and file name recovered from the key
and the computed pending-content path. -/
structure PendingRequestEntry where
  message : String
  timestamp : Nat
  author : String
  authorId : String
  status : String
  processedBy : Option String
  processedAt : Option Nat
  comment : Option String
  id : Nat
  fileName : String
  path : S3Key
deriving DecidableEq, Repr

/-- Result shape of getPendingCommitRequests. -/
structure RequestsResult where
  success : Bool
  requests : Option (List PendingRequestEntry)
  error : Option String
deriving DecidableEq, Repr

/-- ListObjectsV2 over all pending-metadata keys of one repository. -/
def pendingMetaObjects (σ : S3State) (repoId : String) :
    List (S3Key × S3Object) :=
  σ.filter (fun p =>
    match p.1 with
    | .pendingMeta r _ _ => decide (r = repoId)
    | _ => false)

/-- Descending-by-timestamp comparison used by the pending-request sort. -/
def pendingEntryDesc (a b : PendingRequestEntry) : Prop :=
  b.timestamp ≤ a.timestamp

instance : DecidableRel pendingEntryDesc := fun a b =>
  inferInstanceAs (Decidable (b.timestamp ≤ a.timestamp))

/-- The entry getPendingCommitRequests builds from one listed
pending-metadata object: the parsed metadata spread with the id and file
name recovered from the key and the computed pending-content path (parse
failures drop to null and are filtered out). -/
def pendingEntryOf (repoId : String) (p : S3Key × S3Object) :
    Option PendingRequestEntry :=
  (p.2.body.parsePendingMeta).map (fun md =>
    ({ message := md.message
       timestamp := md.timestamp
       author := md.author
       authorId := md.authorId
       status := md.status
       processedBy := md.processedBy
       processedAt := md.processedAt
       comment := md.comment
       id := keyTimestamp p.1
       fileName := keyFileName p.1
       path := .pending repoId (keyFileName p.1) md.timestamp } :
      PendingRequestEntry))

/-- getPendingCommitRequests: list and parse every pending-metadata blob of
the repository — with no filtering on the stored status — and sort by
timestamp descending. -/
def getPendingCommitRequests (init : Bool) (σ : S3State) (repoId : String) :
    RequestsResult :=
  if ¬init then ⟨false, none, some "AWS S3 is not properly configured"⟩
  else
    let requests := (pendingMetaObjects σ repoId).filterMap
      (pendingEntryOf repoId)
    ⟨true, some (requests.insertionSort pendingEntryDesc), none⟩

/-- processPendingCommit: verify ownership against a fresh getRepository
read, re-read the pending-metadata record, and (on approve) fetch the
pending bytes and apply them through uploadFileWithCommit under the
approving owner, then rewrite the metadata record in place with the new
status, processedBy and processedAt; on reject only the metadata record is
rewritten.  Finally the requester is notified (best effort). -/
def processPendingCommit (init : Bool) (ambient : Option User) (now : Nat)
    (w : World) (repoId : String) (requestId : Nat) (fileName : String)
    (approve : Bool) (comment : Option String) : SimpleResult × World :=
  if ¬init then (⟨false, some "AWS S3 is not properly configured"⟩, w)
  else
    match ambient with
    | none => (⟨false, some "User not authenticated"⟩, w)
    | some u =>
      let repoResult := getRepository (some u) w repoId
      match repoResult.repository with
      | none =>
        (⟨false, some (repoResult.error.getD "Repository not found")⟩, w)
      | some r =>
        if ¬repoResult.success then
          (⟨false, some (repoResult.error.getD "Repository not found")⟩, w)
        else if r.repo.ownerId ≠ u.uid then
          (⟨false,
            some "Only the repository owner can approve commit requests"⟩, w)
        else
          match getObject w.s3 (.pendingMeta repoId fileName requestId) with
          | none => (⟨false, some "Failed to access commit request"⟩, w)
          | some metaObj =>
            match metaObj.body.parsePendingMeta with
            | none => (⟨false, some "Failed to access commit request"⟩, w)
            | some metadata =>
              let notify (w' : World) : World :=
                (createNotification (some u) now w' metadata.authorId
                  (if approve then "commit_request_approved"
                   else "commit_request_rejected")
                  (if approve then
                    "Your changes to " ++ fileName ++
                      " have been approved and applied"
                   else "Your changes to " ++ fileName ++
                      " have been rejected")
                  [("repositoryId", repoId),
                   ("repositoryName", r.repo.name),
                   ("fileName", fileName),
                   ("commitTimestamp", toString requestId),
                   ("comment", comment.getD "")]).2
              if approve then
                match getObject w.s3 (.pending repoId fileName requestId) with
                | none => (⟨false, some "Failed to access commit request"⟩, w)
                | some fileObj =>
                  let fileContent := fileObj.body.decode
                  let (_, σ1) := uploadFileWithCommit init (some u) (some u)
                    now w.s3 repoId fileName fileContent
                    (metadata.message ++ " (Approved by " ++
                      (u.email.getD "undefined") ++ ")")
                  let updatedMetadata : PendingMetaData :=
                    { metadata with
                        status := "approved"
                        processedBy := some (userLabel u)
                        processedAt := some now
                        comment := some (comment.getD "") }
                  let σ2 := putObject σ1
                    (.pendingMeta repoId fileName requestId)
                    { body := .pendingMetaJson updatedMetadata
                      contentType := "application/json"
                      lastModified := now
                      meta := [] }
                  (⟨true, none⟩, notify { w with s3 := σ2 })
              else
                let updatedMetadata : PendingMetaData :=
                  { metadata with
                      status := "rejected"
                      processedBy := some (userLabel u)
                      processedAt := some now
                      comment := some (comment.getD "") }
                let σ2 := putObject w.s3
                  (.pendingMeta repoId fileName requestId)
                  { body := .pendingMetaJson updatedMetadata
                    contentType := "application/json"
                    lastModified := now
                    meta := [] }
                (⟨true, none⟩, notify { w with s3 := σ2 })

/-- Result shape of getPullRequest. -/
structure PRFetchResult where
  success : Bool
  pullRequest : Option PullRequest
  error : Option String
deriving DecidableEq, Repr

/-- getPullRequest: fetch a pull request document by id. -/
def getPullRequest (w : World) (pullRequestId : String) : PRFetchResult :=
  match docGet w.pullRequests pullRequestId with
  | none => ⟨false, none, some "Pull request not found"⟩
  | some pr => ⟨true, some pr, none⟩

/-- updatePullRequestStatus: authorization (the target owner may set any
status; anyone authenticated may set status closed), then the document
update — with no check of the current status — followed by a notification to
the pull request's creator.  -/
def updatePullRequestStatus (ambient : Option User) (now : Nat) (w : World)
    (pullRequestId : String) (status : PRStatus) (comment : Option String) :
    SimpleResult × World :=
  match ambient with
  | none => (⟨false, some "User not authenticated"⟩, w)
  | some u =>
    match docGet w.pullRequests pullRequestId with
    | none => (⟨false, some "Pull request not found"⟩, w)
    | some pullRequest =>
      if pullRequest.targetOwnerId ≠ u.uid ∧ status ≠ .closed then
        (⟨false,
          some "Only the repository owner can update this pull request"⟩, w)
      else
        let prs := docUpdate w.pullRequests pullRequestId
          (fun pr => { pr with status := status, updatedAt := now })
        let doc : NotificationDoc :=
          { userId := pullRequest.createdBy.id
            type := "pull_request_" ++ status.str
            message := "Your pull request \"" ++ pullRequest.title ++
              "\" was " ++ status.str
            details := [("pullRequestId", pullRequestId),
                        ("comment", comment.getD ""),
                        ("targetRepoName", pullRequest.targetRepoName)]
            read := false
            createdAt := now
            createdBy := none }
        (⟨true, none⟩,
          { w with pullRequests := prs
                   notifications := w.notifications ++ [doc] })

/-- One iteration of the merge loop: fetch the file's current content from
the source repository (skipping the file when the fetch fails or the content
is falsy) and commit it into the target repository, counting successes. -/
def mergeCopyStep (init : Bool) (u : User) (now : Nat)
    (sourceRepoId targetRepoId message fileName : String)
    (acc : Nat × S3State) : Nat × S3State :=
  let sourceFileResult := getFileContent init acc.2 sourceRepoId fileName
  match sourceFileResult.content with
  | none => acc
  | some content =>
    if ¬sourceFileResult.success ∨ content = "" then acc
    else
      let (uploadResult, σ') := uploadFileWithCommit init (some u) (some u)
        now acc.2 targetRepoId fileName content message
      (if uploadResult.success then acc.1 + 1 else acc.1, σ')

/-- The sequential per-file transfer loop of mergePullRequest. -/
def mergeLoop (init : Bool) (u : User) (now : Nat)
    (sourceRepoId targetRepoId message : String) :
    List String → Nat × S3State → Nat × S3State
  | [], acc => acc
  | fileName :: rest, acc =>
    mergeLoop init u now sourceRepoId targetRepoId message rest
      (mergeCopyStep init u now sourceRepoId targetRepoId message fileName acc)

/-- mergePullRequest: authorization (target owner only), open-status
precondition, resolution of the changed-file list (recomputed when the
stored list is empty), the per-file transfer loop, and finally the status
transition to merged via updatePullRequestStatus (whose result is not
checked). -/
def mergePullRequest (init : Bool) (ambient : Option User) (now : Nat)
    (w : World) (pullRequestId : String) (comment : Option String) :
    SimpleResult × World :=
  match ambient with
  | none => (⟨false, some "User not authenticated"⟩, w)
  | some u =>
    match docGet w.pullRequests pullRequestId with
    | none => (⟨false, some "Pull request not found"⟩, w)
    | some pullRequest =>
      if pullRequest.targetOwnerId ≠ u.uid then
        (⟨false,
          some "Only the repository owner can merge this pull request"⟩, w)
      else if pullRequest.status ≠ .«open» then
        (⟨false,
          some ("This pull request is already " ++ pullRequest.status.str)⟩, w)
      else
        let transfer (changedFiles : List String) : SimpleResult × World :=
          let message := "Merge PR #" ++ pullRequestId.take 8 ++ ": " ++
            pullRequest.title
          let result := mergeLoop init u now pullRequest.sourceRepoId
            pullRequest.targetRepoId message changedFiles (0, w.s3)
          let w1 := { w with s3 := result.2 }
          let step := updatePullRequestStatus (some u) now w1 pullRequestId
            .merged comment
          (⟨true, none⟩, step.2)
        let stored := pullRequest.changedFiles.getD []
        if stored.isEmpty then
          let changedFilesResult := getChangedFiles (some u) init w.s3
            pullRequest.sourceRepoId pullRequest.targetRepoId
          match changedFilesResult.files with
          | none =>
            (⟨false,
              some (changedFilesResult.error.getD
                "Failed to determine changed files")⟩, w)
          | some changedFiles => transfer changedFiles
        else transfer stored

/-! Equation lemmas putting the write sequences of the two commit paths into
explicit put-chains, and document-store lemmas. -/

/-- The current-content object written by commitFileVersion. -/
def commitFileObj (u : User) (now : Nat) (fileName content : String) :
    S3Object :=
  { body := .text content
    contentType := "text/plain"
    lastModified := now
    meta := [("user-id", u.uid), ("user-email", u.email.getD ""),
             ("uploaded-at", toString now), ("original-filename", fileName)] }

/-- The history snapshot written by commitFileVersion. -/
def commitHistoryObj (u : User) (now : Nat) (message content : String)
    (prev : Option Nat) : S3Object :=
  { body := .text content
    contentType := "text/plain"
    lastModified := now
    meta := [("user-id", u.uid), ("user-email", u.email.getD ""),
             ("commit-message", message), ("timestamp", toString now),
             ("previous-version", (prev.map toString).getD "")] }

/-- The commit-metadata object written by commitFileVersion. -/
def commitMetaObj (u : User) (now : Nat) (message : String)
    (prev : Option Nat) : S3Object :=
  { body := .commitJson
      { message := message, timestamp := now, author := userLabel u,
        previousVersion := prev }
    contentType := "application/json"
    lastModified := now
    meta := [] }

theorem commitFileVersion_eq (u : User) (now : Nat) (σ : S3State)
    (repoId fileName content message : String) (prev : Option Nat) :
    commitFileVersion true (some u) now σ repoId fileName content message
        prev =
      (⟨true, some now, none⟩,
        putObject (putObject (putObject σ (.file repoId fileName)
            (commitFileObj u now fileName content))
          (.history repoId fileName now)
          (commitHistoryObj u now message content prev))
          (.commits repoId fileName now) (commitMetaObj u now message prev)) := by
  simp [commitFileVersion, commitFileObj, commitHistoryObj, commitMetaObj]

/-- The current-content object written through uploadFileToS3 by
uploadFileWithCommit (content type detected from the file name). -/
def uploadedFileObj (u : User) (now : Nat) (fileName content : String) :
    S3Object :=
  { body := .text content
    contentType :=
      if isTextFile fileName then "text/plain"
      else "application/octet-stream"
    lastModified := now
    meta := [("user-id", u.uid), ("uploaded-at", toString now),
             ("original-filename", fileName)] }

/-- The history snapshot written by uploadFileWithCommit. -/
def uploadHistoryObj (u : User) (now : Nat) (message content : String) :
    S3Object :=
  { body := .text content
    contentType := "text/plain"
    lastModified := now
    meta := [("user-id", u.uid), ("user-email", u.email.getD ""),
             ("commit-message", message), ("timestamp", toString now)] }

/-- The commit-metadata object written by uploadFileWithCommit (no
previous-version back-pointer). -/
def uploadCommitObj (u : User) (now : Nat) (message : String) : S3Object :=
  { body := .commitJson
      { message := message, timestamp := now, author := userLabel u,
        previousVersion := none }
    contentType := "application/json"
    lastModified := now
    meta := [] }

theorem uploadFileWithCommit_eq (u : User) (now : Nat) (σ : S3State)
    (repoId fileName content message : String) (h : ¬ content = "") :
    uploadFileWithCommit true (some u) (some u) now σ repoId fileName content
        message =
      (⟨true, some now, none⟩,
        putObject (putObject (putObject σ (.file repoId fileName)
            (uploadedFileObj u now fileName content))
          (.history repoId fileName now) (uploadHistoryObj u now message content))
          (.commits repoId fileName now) (uploadCommitObj u now message)) := by
  simp [uploadFileWithCommit, uploadFileToS3, h, Option.orElse,
    uploadedFileObj, uploadHistoryObj, uploadCommitObj]

theorem docGet_docUpdate_self {α : Type} (l : List (String × α)) (id : String)
    (f : α → α) : docGet (docUpdate l id f) id = (docGet l id).map f := by
  induction l with
  | nil => rfl
  | cons p l ih =>
    by_cases hp : p.1 = id
    · simp [docGet, docUpdate, List.find?, hp]
    · simp only [docGet, docUpdate, List.map_cons] at ih ⊢
      rw [if_neg hp]
      rw [List.find?_cons_of_neg _ (by simp [hp]),
        List.find?_cons_of_neg _ (by simp [hp])]
      exact ih

/-! Claim theorems. -/

/-- C1: if commitFileVersion succeeds returning timestamp T, then
getFileCommitHistory run on the resulting store contains an entry whose
timestamp is T and whose message is the commit message, and getFileVersion
(fromPending = false) at T returns exactly the committed content string. -/
theorem commit_then_history_contains_and_version_roundtrips
    (init : Bool) (ambient : Option User) (now : Nat) (σ : S3State)
    (repoId fileName fileContent commitMessage : String) (prev : Option Nat)
    (T : Nat)
    (hsucc : (commitFileVersion init ambient now σ repoId fileName fileContent
      commitMessage prev).1.success = true)
    (hts : (commitFileVersion init ambient now σ repoId fileName fileContent
      commitMessage prev).1.timestamp = some T) :
    (∃ e ∈ (getFileCommitHistory init
        (commitFileVersion init ambient now σ repoId fileName fileContent
          commitMessage prev).2 repoId fileName).commits.getD [],
      e.timestamp = T ∧ e.message = commitMessage) ∧
    getFileVersion init
        (commitFileVersion init ambient now σ repoId fileName fileContent
          commitMessage prev).2 repoId fileName T false =
      ⟨true, some fileContent, none⟩ := by
  cases init with
  | false => simp [commitFileVersion] at hsucc
  | true =>
    cases ambient with
    | none => simp [commitFileVersion] at hsucc
    | some u =>
      rw [commitFileVersion_eq] at hts ⊢
      simp only at hts
      cases hts
      constructor
      · refine ⟨⟨commitMessage, now, userLabel u, prev, now⟩,
          (List.mem_insertionSort _).mpr ?_, rfl, rfl⟩
        simp [getFileCommitHistory, commitObjectsOf, putObject,
          commitMetaObj, S3Body.parseCommit, keyTimestamp]
      · simp only [getFileVersion]
        rw [if_neg (by simp), if_neg (by simp)]
        rw [getObject_putObject_ne _ _ _ _ (by simp),
          getObject_putObject_self]
        simp [commitHistoryObj, S3Body.decode]

/-- Witness for C1 at a concrete commit. -/
theorem commit_then_history_contains_and_version_roundtrips_witness :
    ((commitFileVersion true (some ⟨"alice", some "alice@x", none⟩) 5 []
        "r1" "a.txt" "hello" "init" none).1.success = true) ∧
    ((commitFileVersion true (some ⟨"alice", some "alice@x", none⟩) 5 []
        "r1" "a.txt" "hello" "init" none).1.timestamp = some 5) ∧
    ((∃ e ∈ (getFileCommitHistory true
        (commitFileVersion true (some ⟨"alice", some "alice@x", none⟩) 5 []
          "r1" "a.txt" "hello" "init" none).2 "r1" "a.txt").commits.getD [],
      e.timestamp = 5 ∧ e.message = "init") ∧
    getFileVersion true
        (commitFileVersion true (some ⟨"alice", some "alice@x", none⟩) 5 []
          "r1" "a.txt" "hello" "init" none).2 "r1" "a.txt" 5 false =
      ⟨true, some "hello", none⟩) :=
  ⟨by decide, by decide,
    commit_then_history_contains_and_version_roundtrips true
      (some ⟨"alice", some "alice@x", none⟩) 5 [] "r1" "a.txt" "hello" "init"
      none 5 (by decide) (by decide)⟩

/-- C2 (code bug evidence): with a file of the same name present in both
repositories but stored at different LastModified instants (1 versus 2) and
with different content, getChangedFiles reports no changed files, because it
compares a `lastModified` field that listRepositoryFiles never produces
(the listing stores the object's LastModified under `createdAt`). -/
theorem changed_files_misses_modified_file :
    getChangedFiles (some ⟨"alice", some "alice@x", none⟩) true
      [(S3Key.file "src" "a.txt",
          ⟨.text "new content", "text/plain", 1, []⟩),
       (S3Key.file "tgt" "a.txt",
          ⟨.text "old content", "text/plain", 2, []⟩)]
      "src" "tgt" = ⟨true, some [], none⟩ := by decide

/-- C9: a private repository read by an authenticated caller who is neither
owner nor collaborator succeeds with exactly the redacted projection:
identity, name, owner, visibility, description and both timestamps, with the
collaborator list cleared and the fork pointer (the only other stored field)
absent. -/
theorem private_repo_get_redacted (u : User) (w : World) (id : String)
    (r : Repository)
    (hget : docGet w.repositories id = some r)
    (hpriv : r.isPublic = false)
    (hown : r.ownerId ≠ u.uid)
    (hcol : u.uid ∉ r.collaborators.getD []) :
    getRepository (some u) w id =
      ⟨true,
        some ⟨id,
          { name := r.name
            description := r.description
            ownerId := r.ownerId
            createdAt := r.createdAt
            updatedAt := r.updatedAt
            isPublic := false
            collaborators := some []
            forkedFrom := none }⟩,
        none⟩ := by
  simp [getRepository, hget, hpriv, hown, hcol]

/-- Witness for C9 at a concrete private repository and stranger caller. -/
theorem private_repo_get_redacted_witness :
    (docGet ([("rep1",
        ({ name := "demo", description := "d", ownerId := "alice",
           createdAt := 1, updatedAt := 2, isPublic := false,
           collaborators := some ["bob"], forkedFrom := some "orig" } :
          Repository))] : List (String × Repository)) "rep1" =
      some { name := "demo", description := "d", ownerId := "alice",
             createdAt := 1, updatedAt := 2, isPublic := false,
             collaborators := some ["bob"], forkedFrom := some "orig" }) ∧
    (getRepository (some ⟨"carol", some "carol@x", none⟩)
        ⟨[("rep1",
          { name := "demo", description := "d", ownerId := "alice",
            createdAt := 1, updatedAt := 2, isPublic := false,
            collaborators := some ["bob"], forkedFrom := some "orig" })],
          [], [], []⟩ "rep1" =
      ⟨true,
        some ⟨"rep1",
          { name := "demo", description := "d", ownerId := "alice",
            createdAt := 1, updatedAt := 2, isPublic := false,
            collaborators := some [], forkedFrom := none }⟩,
        none⟩) :=
  ⟨by decide,
    private_repo_get_redacted ⟨"carol", some "carol@x", none⟩
      ⟨[("rep1",
        { name := "demo", description := "d", ownerId := "alice",
          createdAt := 1, updatedAt := 2, isPublic := false,
          collaborators := some ["bob"], forkedFrom := some "orig" })],
        [], [], []⟩ "rep1"
      { name := "demo", description := "d", ownerId := "alice",
        createdAt := 1, updatedAt := 2, isPublic := false,
        collaborators := some ["bob"], forkedFrom := some "orig" }
      (by decide) (by decide) (by decide) (by decide)⟩

instance : IsTotal PendingRequestEntry pendingEntryDesc :=
  ⟨fun a b => Nat.le_total b.timestamp a.timestamp⟩

instance : IsTrans PendingRequestEntry pendingEntryDesc :=
  ⟨fun _ _ _ h1 h2 => Nat.le_trans h2 h1⟩

theorem getPendingCommitRequests_requests (σ : S3State) (repoId : String) :
    (getPendingCommitRequests true σ repoId).requests.getD [] =
      ((pendingMetaObjects σ repoId).filterMap
        (pendingEntryOf repoId)).insertionSort pendingEntryDesc := by
  simp [getPendingCommitRequests]

/-- C10: getPendingCommitRequests returns an entry for every pending-metadata
record stored under the repository, whatever its stored status (so processed
records keep appearing), and the returned list is sorted by timestamp
descending. -/
theorem pending_requests_list_all_statuses_sorted (σ : S3State)
    (repoId f : String) (ts : Nat) (o : S3Object) (md : PendingMetaData)
    (hmem : (S3Key.pendingMeta repoId f ts, o) ∈ σ)
    (hbody : o.body = .pendingMetaJson md) :
    (getPendingCommitRequests true σ repoId).success = true ∧
    (∃ e ∈ (getPendingCommitRequests true σ repoId).requests.getD [],
      e.fileName = f ∧ e.id = ts ∧ e.timestamp = md.timestamp ∧
      e.status = md.status ∧ e.message = md.message ∧
      e.author = md.author) ∧
    List.Sorted pendingEntryDesc
      ((getPendingCommitRequests true σ repoId).requests.getD []) := by
  rw [getPendingCommitRequests_requests]
  refine ⟨by simp [getPendingCommitRequests], ?_,
    List.sorted_insertionSort pendingEntryDesc _⟩
  refine ⟨⟨md.message, md.timestamp, md.author, md.authorId, md.status,
    md.processedBy, md.processedAt, md.comment, ts, f,
    .pending repoId f md.timestamp⟩, ?_, rfl, rfl, rfl, rfl, rfl, rfl⟩
  refine (List.mem_insertionSort _).mpr ?_
  refine List.mem_filterMap.mpr
    ⟨(S3Key.pendingMeta repoId f ts, o),
      List.mem_filter.mpr ⟨hmem, by simp [pendingMetaObjects]⟩, ?_⟩
  simp [pendingEntryOf, hbody, S3Body.parsePendingMeta, keyTimestamp,
    keyFileName]

/-- Fixture: an already-rejected pending-metadata record. -/
def mdRejFx : PendingMetaData :=
  { message := "edit", timestamp := 3, author := "bob@x", authorId := "bob",
    fileName := "a.txt", status := "rejected", processedBy := some "owner@x",
    processedAt := some 4, comment := some "" }

/-- Fixture: a store holding only the rejected pending-metadata record. -/
def pmStoreFx : S3State :=
  [(S3Key.pendingMeta "r1" "a.txt" 3,
    { body := .pendingMetaJson mdRejFx, contentType := "application/json",
      lastModified := 3, meta := [] })]

/-- Witness for C10 at a concrete store holding one already-rejected
pending-metadata record. -/
theorem pending_requests_list_all_statuses_sorted_witness :
    ((S3Key.pendingMeta "r1" "a.txt" 3,
      ({ body := .pendingMetaJson mdRejFx,
         contentType := "application/json", lastModified := 3,
         meta := [] } : S3Object)) ∈ pmStoreFx) ∧
    (({ body := .pendingMetaJson mdRejFx,
        contentType := "application/json", lastModified := 3,
        meta := [] } : S3Object).body = .pendingMetaJson mdRejFx) ∧
    ((getPendingCommitRequests true pmStoreFx "r1").success = true ∧
      (∃ e ∈ (getPendingCommitRequests true pmStoreFx "r1").requests.getD [],
        e.fileName = "a.txt" ∧ e.id = 3 ∧ e.timestamp = mdRejFx.timestamp ∧
        e.status = mdRejFx.status ∧ e.message = mdRejFx.message ∧
        e.author = mdRejFx.author) ∧
      List.Sorted pendingEntryDesc
        ((getPendingCommitRequests true pmStoreFx "r1").requests.getD [])) :=
  ⟨by decide, by decide,
    pending_requests_list_all_statuses_sorted pmStoreFx "r1" "a.txt" 3
      { body := .pendingMetaJson mdRejFx, contentType := "application/json",
        lastModified := 3, meta := [] }
      mdRejFx (by decide) (by decide)⟩

/-! Concrete fixtures shared by the pull-request and pending-commit
evaluations. -/

/-- Fixture: the target repository owner. -/
def ownerFx : User := ⟨"owner", some "owner@x", none⟩

/-- Fixture: the submitting collaborator. -/
def bobFx : User := ⟨"bob", some "bob@x", none⟩

/-- Fixture: an authenticated caller who is neither target owner nor pull
request creator. -/
def strangerFx : User := ⟨"mallory", some "m@x", none⟩

/-- Fixture: a pull request from repository src to repository tgt owned by
owner, created by creator, in a chosen status. -/
def prFx (st : PRStatus) : PullRequest :=
  { title := "t", description := "d", sourceRepoId := "src",
    sourceRepoName := "sn", targetRepoId := "tgt", targetRepoName := "tn",
    targetOwnerId := "owner", sourceBranch := some "main",
    targetBranch := some "main", status := st, createdAt := 0, updatedAt := 0,
    createdBy := ⟨"creator", "c", "c@x"⟩, changedFiles := some ["a.txt"] }

/-- Fixture: a world holding just the fixture pull request. -/
def worldFx (st : PRStatus) : World := ⟨[], [("pr1", prFx st)], [], []⟩

/-- C4 counterexample: updatePullRequestStatus called by the target owner on
an already-merged pull request succeeds and moves it to rejected, so merged
is not a terminal state for that operation. -/
theorem merged_pr_transitions_again :
    (updatePullRequestStatus (some ownerFx) 7 (worldFx .merged) "pr1"
      .rejected none).1.success = true ∧
    docGet (updatePullRequestStatus (some ownerFx) 7 (worldFx .merged) "pr1"
      .rejected none).2.pullRequests "pr1" =
      some { prFx .merged with status := .rejected, updatedAt := 7 } := by
  decide

/-- C4 (amended): only mergePullRequest treats merged/rejected/closed as
terminal — on such a pull request it fails leaving the whole state
unchanged — while updatePullRequestStatus never consults the current status
and performs any transition the target owner requests. -/
theorem non_open_terminal_only_for_merge (init : Bool) (u : User) (now : Nat)
    (w : World) (id : String) (pr : PullRequest) (st : PRStatus)
    (comment : Option String)
    (hpr : docGet w.pullRequests id = some pr)
    (hnot : pr.status ≠ .«open») :
    ((mergePullRequest init (some u) now w id comment).1.success = false ∧
      (mergePullRequest init (some u) now w id comment).2 = w) ∧
    (pr.targetOwnerId = u.uid →
      (updatePullRequestStatus (some u) now w id st comment).1.success =
        true ∧
      docGet (updatePullRequestStatus (some u) now w id st
          comment).2.pullRequests id =
        some { pr with status := st, updatedAt := now }) := by
  constructor
  · by_cases hownr : pr.targetOwnerId = u.uid
    · simp [mergePullRequest, hpr, hownr, hnot]
    · simp [mergePullRequest, hpr, hownr]
  · intro hown
    constructor
    · simp [updatePullRequestStatus, hpr, hown]
    · simp only [updatePullRequestStatus, hpr]
      rw [if_neg (by simp [hown])]
      simp [docGet_docUpdate_self, hpr]

/-- Witness for the amended C4 at the concrete merged fixture. -/
theorem non_open_terminal_only_for_merge_witness :
    (docGet (worldFx .merged).pullRequests "pr1" = some (prFx .merged)) ∧
    ((prFx .merged).status ≠ .«open») ∧
    (((mergePullRequest true (some ownerFx) 7 (worldFx .merged) "pr1"
        none).1.success = false ∧
      (mergePullRequest true (some ownerFx) 7 (worldFx .merged) "pr1"
        none).2 = worldFx .merged) ∧
    ((prFx .merged).targetOwnerId = ownerFx.uid →
      (updatePullRequestStatus (some ownerFx) 7 (worldFx .merged) "pr1"
        .rejected none).1.success = true ∧
      docGet (updatePullRequestStatus (some ownerFx) 7 (worldFx .merged)
          "pr1" .rejected none).2.pullRequests "pr1" =
        some { prFx .merged with status := .rejected, updatedAt := 7 })) :=
  ⟨by decide, by decide,
    non_open_terminal_only_for_merge true ownerFx 7 (worldFx .merged) "pr1"
      (prFx .merged) .rejected none (by decide) (by decide)⟩

/-- C5 counterexample: a caller who is neither the target owner nor the pull
request's creator successfully closes someone else's open pull request. -/
theorem stranger_closes_pr :
    (updatePullRequestStatus (some strangerFx) 7 (worldFx .«open») "pr1"
      .closed none).1.success = true ∧
    docGet (updatePullRequestStatus (some strangerFx) 7 (worldFx .«open»)
        "pr1" .closed none).2.pullRequests "pr1" =
      some { prFx .«open» with status := .closed, updatedAt := 7 } ∧
    strangerFx.uid ≠ (prFx .«open»).targetOwnerId ∧
    strangerFx.uid ≠ (prFx .«open»).createdBy.id := by
  decide

/-- C5 (amended): merge and reject succeed only for the target owner; close
succeeds for every authenticated caller (the creator included, but not only
the creator); merge on a non-open pull request fails with an
already-in-status error before any file operation, leaving the state
untouched. -/
theorem status_change_authorization (init : Bool) (u : User) (now : Nat)
    (w : World) (id : String) (pr : PullRequest) (comment : Option String)
    (hpr : docGet w.pullRequests id = some pr) :
    (pr.targetOwnerId ≠ u.uid →
      updatePullRequestStatus (some u) now w id .rejected comment =
        (⟨false,
          some "Only the repository owner can update this pull request"⟩,
         w) ∧
      mergePullRequest init (some u) now w id comment =
        (⟨false,
          some "Only the repository owner can merge this pull request"⟩,
         w)) ∧
    ((updatePullRequestStatus (some u) now w id .closed comment).1.success =
      true ∧
     docGet (updatePullRequestStatus (some u) now w id .closed
        comment).2.pullRequests id =
      some { pr with status := .closed, updatedAt := now }) ∧
    (pr.targetOwnerId = u.uid → pr.status ≠ .«open» →
      mergePullRequest init (some u) now w id comment =
        (⟨false,
          some ("This pull request is already " ++ pr.status.str)⟩, w)) := by
  refine ⟨fun hno => ⟨?_, ?_⟩, ⟨?_, ?_⟩, fun hown hnot => ?_⟩
  · simp [updatePullRequestStatus, hpr, hno]
  · simp [mergePullRequest, hpr, hno]
  · simp [updatePullRequestStatus, hpr]
  · simp only [updatePullRequestStatus, hpr]
    rw [if_neg (by simp)]
    simp [docGet_docUpdate_self, hpr]
  · simp [mergePullRequest, hpr, hown, hnot]

/-- Witness for the amended C5: the stranger can neither reject nor merge
the fixture pull request, but can close it. -/
theorem status_change_authorization_witness :
    (docGet (worldFx .«open»).pullRequests "pr1" = some (prFx .«open»)) ∧
    (((prFx .«open»).targetOwnerId ≠ strangerFx.uid →
      updatePullRequestStatus (some strangerFx) 7 (worldFx .«open») "pr1"
          .rejected none =
        (⟨false,
          some "Only the repository owner can update this pull request"⟩,
         worldFx .«open») ∧
      mergePullRequest true (some strangerFx) 7 (worldFx .«open») "pr1"
          none =
        (⟨false,
          some "Only the repository owner can merge this pull request"⟩,
         worldFx .«open»)) ∧
    ((updatePullRequestStatus (some strangerFx) 7 (worldFx .«open») "pr1"
        .closed none).1.success = true ∧
     docGet (updatePullRequestStatus (some strangerFx) 7 (worldFx .«open»)
        "pr1" .closed none).2.pullRequests "pr1" =
      some { prFx .«open» with status := .closed, updatedAt := 7 }) ∧
    ((prFx .«open»).targetOwnerId = strangerFx.uid →
      (prFx .«open»).status ≠ .«open» →
      mergePullRequest true (some strangerFx) 7 (worldFx .«open») "pr1"
          none =
        (⟨false,
          some ("This pull request is already " ++ (prFx .«open»).status.str)⟩,
         worldFx .«open»))) :=
  ⟨by decide,
    status_change_authorization true strangerFx 7 (worldFx .«open») "pr1"
      (prFx .«open») none (by decide)⟩

/-- createNotification only appends to the notification collection; the blob
store is untouched. -/
theorem createNotification_s3 (ambient : Option User) (now : Nat) (w : World)
    (userId ntype message : String) (details : List (String × String)) :
    ((createNotification ambient now w userId ntype message details).2).s3 =
      w.s3 := by
  unfold createNotification
  by_cases h : userId = "" <;> cases ambient <;> simp [h]

/-- Fixture: a repository owned by owner with bob as collaborator. -/
def repoFx : Repository :=
  { name := "demo", description := "d", ownerId := "owner", createdAt := 0,
    updatedAt := 0, isPublic := true, collaborators := some ["bob"],
    forkedFrom := none }

/-- Fixture: a world holding the fixture repository, bob's pending change at
timestamp 3 and its metadata already marked rejected. -/
def pendingWorldFx : World :=
  ⟨[("r1", repoFx)], [], [],
    [(S3Key.pending "r1" "a.txt" 3,
      { body := .text "bob content", contentType := "text/plain",
        lastModified := 3, meta := [] }),
     (S3Key.pendingMeta "r1" "a.txt" 3,
      { body := .pendingMetaJson mdRejFx, contentType := "application/json",
        lastModified := 3, meta := [] })]⟩

/-- C7 counterexample: a pending change whose metadata status is already
rejected is processed again with approve — the call succeeds and the stored
status flips to approved, so rejected → approved is possible. -/
theorem rejected_request_reapproved :
    (processPendingCommit true (some ownerFx) 9 pendingWorldFx "r1" 3 "a.txt"
      true none).1.success = true ∧
    (getObject (processPendingCommit true (some ownerFx) 9 pendingWorldFx
        "r1" 3 "a.txt" true none).2.s3
      (S3Key.pendingMeta "r1" "a.txt" 3)).map (fun q => q.body) =
      some (.pendingMetaJson
        { mdRejFx with
            status := "approved"
            processedBy := some "owner@x"
            processedAt := some 9
            comment := some "" }) := by
  decide

/-- C7 (amended): processPendingCommit re-reads the pending-metadata record
before acting but never consults its stored status: for any stored status
the owner call succeeds and overwrites the record with approved or rejected
according to the flag, so already-processed requests can be transitioned
again. -/
theorem process_pending_ignores_stored_status (u : User) (now : Nat)
    (w : World) (repoId f : String) (ts : Nat) (repo : Repository)
    (mo po : S3Object) (md : PendingMetaData) (approve : Bool)
    (comment : Option String)
    (hrepo : docGet w.repositories repoId = some repo)
    (hown : repo.ownerId = u.uid)
    (hmeta : getObject w.s3 (S3Key.pendingMeta repoId f ts) = some mo)
    (hmb : mo.body = .pendingMetaJson md)
    (hpend : approve = true →
      getObject w.s3 (S3Key.pending repoId f ts) = some po) :
    (processPendingCommit true (some u) now w repoId ts f approve
      comment).1.success = true ∧
    (getObject (processPendingCommit true (some u) now w repoId ts f approve
        comment).2.s3 (S3Key.pendingMeta repoId f ts)).map (fun q => q.body) =
      some (.pendingMetaJson
        { md with
            status := (if approve then "approved" else "rejected")
            processedBy := some (userLabel u)
            processedAt := some now
            comment := some (comment.getD "") }) := by
  cases approve with
  | false =>
    simp [processPendingCommit, getRepository, hrepo, hown, hmeta, hmb,
      S3Body.parsePendingMeta, createNotification_s3,
      getObject_putObject_self]
  | true =>
    have hp := hpend rfl
    simp [processPendingCommit, getRepository, hrepo, hown, hmeta, hmb,
      S3Body.parsePendingMeta, hp, createNotification_s3,
      getObject_putObject_self]

/-- Witness for the amended C7 re-approving the rejected fixture request. -/
theorem process_pending_ignores_stored_status_witness :
    (docGet pendingWorldFx.repositories "r1" = some repoFx) ∧
    (repoFx.ownerId = ownerFx.uid) ∧
    (getObject pendingWorldFx.s3 (S3Key.pendingMeta "r1" "a.txt" 3) =
      some { body := .pendingMetaJson mdRejFx,
             contentType := "application/json", lastModified := 3,
             meta := [] }) ∧
    ((processPendingCommit true (some ownerFx) 9 pendingWorldFx "r1" 3
      "a.txt" true none).1.success = true ∧
    (getObject (processPendingCommit true (some ownerFx) 9 pendingWorldFx
        "r1" 3 "a.txt" true none).2.s3
      (S3Key.pendingMeta "r1" "a.txt" 3)).map (fun q => q.body) =
      some (.pendingMetaJson
        { mdRejFx with
            status := (if true then "approved" else "rejected")
            processedBy := some (userLabel ownerFx)
            processedAt := some 9
            comment := some "" })) :=
  ⟨by decide, by decide, by decide,
    process_pending_ignores_stored_status ownerFx 9 pendingWorldFx "r1"
      "a.txt" 3 repoFx
      { body := .pendingMetaJson mdRejFx, contentType := "application/json",
        lastModified := 3, meta := [] }
      { body := .text "bob content", contentType := "text/plain",
        lastModified := 3, meta := [] }
      mdRejFx true none (by decide) (by decide) (by decide) (by decide)
      (fun _ => by decide)⟩

/-- C6 counterexample: bob's pending change approved by the owner produces a
commit-metadata blob whose author field is the approving owner's label, not
the submitting collaborator's. -/
theorem approved_commit_attributed_to_approver :
    ((getObject (processPendingCommit true (some ownerFx) 5
        (createPendingCommit true (some bobFx) 3 ⟨[("r1", repoFx)], [], [], []⟩
          "r1" "a.txt" "bob content" "edit").2
        "r1" 3 "a.txt" true none).2.s3
      (S3Key.commits "r1" "a.txt" 5)).map (fun q => q.body) =
      some (.commitJson
        { message := "edit (Approved by owner@x)", timestamp := 5,
          author := "owner@x", previousVersion := none })) ∧
    userLabel bobFx = "bob@x" ∧ ("owner@x" : String) ≠ "bob@x" := by
  decide

/-- C6 (amended): on owner approval the file's current content becomes the
pending content and a fresh history entry and commit-metadata blob are
written, but the commit metadata's author field records the approving owner
(the collaborator's identity survives only in the pending metadata), while
processedBy records the approving owner as the claim states. -/
theorem approval_applies_content_author_is_approver (u : User) (now : Nat)
    (w : World) (repoId f : String) (ts : Nat) (repo : Repository)
    (mo po : S3Object) (md : PendingMetaData) (c : String)
    (comment : Option String)
    (hrepo : docGet w.repositories repoId = some repo)
    (hown : repo.ownerId = u.uid)
    (hmeta : getObject w.s3 (S3Key.pendingMeta repoId f ts) = some mo)
    (hmb : mo.body = .pendingMetaJson md)
    (hpend : getObject w.s3 (S3Key.pending repoId f ts) = some po)
    (hpb : po.body = .text c)
    (hc : ¬ c = "") :
    (processPendingCommit true (some u) now w repoId ts f true
      comment).1.success = true ∧
    (getObject (processPendingCommit true (some u) now w repoId ts f true
        comment).2.s3 (S3Key.file repoId f)).map (fun q => q.body) =
      some (.text c) ∧
    (getObject (processPendingCommit true (some u) now w repoId ts f true
        comment).2.s3 (S3Key.history repoId f now)).map (fun q => q.body) =
      some (.text c) ∧
    (getObject (processPendingCommit true (some u) now w repoId ts f true
        comment).2.s3 (S3Key.commits repoId f now)).map (fun q => q.body) =
      some (.commitJson
        { message := md.message ++ " (Approved by " ++
            (u.email.getD "undefined") ++ ")"
          timestamp := now
          author := userLabel u
          previousVersion := none }) ∧
    (getObject (processPendingCommit true (some u) now w repoId ts f true
        comment).2.s3 (S3Key.pendingMeta repoId f ts)).map (fun q => q.body) =
      some (.pendingMetaJson
        { md with
            status := "approved"
            processedBy := some (userLabel u)
            processedAt := some now
            comment := some (comment.getD "") }) := by
  have hdec : po.body.decode = c := by rw [hpb]; rfl
  simp [processPendingCommit, getRepository, hrepo, hown, hmeta, hmb,
    S3Body.parsePendingMeta, hpend, hdec, createNotification_s3,
    uploadFileWithCommit_eq _ _ _ _ _ _ _ hc,
    getObject_putObject_self, getObject_putObject_ne,
    uploadedFileObj, uploadHistoryObj, uploadCommitObj]

/-- Witness for the amended C6: bob's staged change applied by the owner. -/
theorem approval_applies_content_author_is_approver_witness :
    (docGet pendingWorldFx.repositories "r1" = some repoFx) ∧
    (repoFx.ownerId = ownerFx.uid) ∧
    (("bob content" : String) ≠ "") ∧
    ((processPendingCommit true (some ownerFx) 9 pendingWorldFx "r1" 3
      "a.txt" true none).1.success = true ∧
    (getObject (processPendingCommit true (some ownerFx) 9 pendingWorldFx
        "r1" 3 "a.txt" true none).2.s3
      (S3Key.file "r1" "a.txt")).map (fun q => q.body) =
      some (.text "bob content") ∧
    (getObject (processPendingCommit true (some ownerFx) 9 pendingWorldFx
        "r1" 3 "a.txt" true none).2.s3
      (S3Key.history "r1" "a.txt" 9)).map (fun q => q.body) =
      some (.text "bob content") ∧
    (getObject (processPendingCommit true (some ownerFx) 9 pendingWorldFx
        "r1" 3 "a.txt" true none).2.s3
      (S3Key.commits "r1" "a.txt" 9)).map (fun q => q.body) =
      some (.commitJson
        { message := mdRejFx.message ++ " (Approved by " ++
            (ownerFx.email.getD "undefined") ++ ")"
          timestamp := 9
          author := userLabel ownerFx
          previousVersion := none }) ∧
    (getObject (processPendingCommit true (some ownerFx) 9 pendingWorldFx
        "r1" 3 "a.txt" true none).2.s3
      (S3Key.pendingMeta "r1" "a.txt" 3)).map (fun q => q.body) =
      some (.pendingMetaJson
        { mdRejFx with
            status := "approved"
            processedBy := some (userLabel ownerFx)
            processedAt := some 9
            comment := some "" })) :=
  ⟨by decide, by decide, by decide,
    approval_applies_content_author_is_approver ownerFx 9 pendingWorldFx
      "r1" "a.txt" 3 repoFx
      { body := .pendingMetaJson mdRejFx, contentType := "application/json",
        lastModified := 3, meta := [] }
      { body := .text "bob content", contentType := "text/plain",
        lastModified := 3, meta := [] }
      mdRejFx "bob content" none (by decide) (by decide) (by decide)
      (by decide) (by decide) (by decide) (by decide)⟩

/-- C8: a successful restore of the version at T, at a clock instant
distinct from T, commits the old content as a new version: get-version at
the new timestamp succeeds with content byte-identical to get-version at T,
and both the history snapshot and the commit-metadata blob stored at T are
left exactly as they were — history is never rewritten. -/
theorem restore_roundtrip_preserves_history (init : Bool)
    (ambient : Option User) (now : Nat) (σ : S3State)
    (repoId fileName : String) (T : Nat) (msg : String)
    (hsucc : (restoreFileVersion init ambient now σ repoId fileName T
      msg).1.success = true)
    (hne : now ≠ T) :
    (getFileVersion init (restoreFileVersion init ambient now σ repoId
        fileName T msg).2 repoId fileName now false).success = true ∧
    (getFileVersion init (restoreFileVersion init ambient now σ repoId
        fileName T msg).2 repoId fileName now false).content =
      (getFileVersion init σ repoId fileName T false).content ∧
    getObject (restoreFileVersion init ambient now σ repoId fileName T
        msg).2 (S3Key.history repoId fileName T) =
      getObject σ (S3Key.history repoId fileName T) ∧
    getObject (restoreFileVersion init ambient now σ repoId fileName T
        msg).2 (S3Key.commits repoId fileName T) =
      getObject σ (S3Key.commits repoId fileName T) := by
  cases init with
  | false => simp [restoreFileVersion] at hsucc
  | true =>
    cases ambient with
    | none => simp [restoreFileVersion] at hsucc
    | some u =>
      cases hobj : getObject σ (S3Key.history repoId fileName T) with
      | none => simp [restoreFileVersion, getFileVersion, hobj] at hsucc
      | some o =>
        by_cases hc : o.body.decode = ""
        · simp [restoreFileVersion, getFileVersion, hobj, hc] at hsucc
        · simp [restoreFileVersion, getFileVersion, hobj, hc,
            commitFileVersion_eq, getObject_putObject_self,
            getObject_putObject_ne, hne, Ne.symm hne, commitHistoryObj]

/-- Witness for C8 restoring a concrete old version. -/
theorem restore_roundtrip_preserves_history_witness :
    ((restoreFileVersion true (some ⟨"alice", some "alice@x", none⟩) 9
      [(S3Key.history "r1" "a.txt" 2,
        { body := .text "old", contentType := "text/plain",
          lastModified := 2, meta := [] })] "r1" "a.txt" 2
      "Restored previous version").1.success = true) ∧
    ((9 : Nat) ≠ 2) ∧
    ((getFileVersion true (restoreFileVersion true
        (some ⟨"alice", some "alice@x", none⟩) 9
        [(S3Key.history "r1" "a.txt" 2,
          { body := .text "old", contentType := "text/plain",
            lastModified := 2, meta := [] })] "r1" "a.txt" 2
        "Restored previous version").2 "r1" "a.txt" 9 false).success =
      true ∧
    (getFileVersion true (restoreFileVersion true
        (some ⟨"alice", some "alice@x", none⟩) 9
        [(S3Key.history "r1" "a.txt" 2,
          { body := .text "old", contentType := "text/plain",
            lastModified := 2, meta := [] })] "r1" "a.txt" 2
        "Restored previous version").2 "r1" "a.txt" 9 false).content =
      (getFileVersion true
        [(S3Key.history "r1" "a.txt" 2,
          { body := .text "old", contentType := "text/plain",
            lastModified := 2, meta := [] })] "r1" "a.txt" 2 false).content ∧
    getObject (restoreFileVersion true
        (some ⟨"alice", some "alice@x", none⟩) 9
        [(S3Key.history "r1" "a.txt" 2,
          { body := .text "old", contentType := "text/plain",
            lastModified := 2, meta := [] })] "r1" "a.txt" 2
        "Restored previous version").2 (S3Key.history "r1" "a.txt" 2) =
      getObject
        [(S3Key.history "r1" "a.txt" 2,
          { body := .text "old", contentType := "text/plain",
            lastModified := 2, meta := [] })] (S3Key.history "r1" "a.txt" 2) ∧
    getObject (restoreFileVersion true
        (some ⟨"alice", some "alice@x", none⟩) 9
        [(S3Key.history "r1" "a.txt" 2,
          { body := .text "old", contentType := "text/plain",
            lastModified := 2, meta := [] })] "r1" "a.txt" 2
        "Restored previous version").2 (S3Key.commits "r1" "a.txt" 2) =
      getObject
        [(S3Key.history "r1" "a.txt" 2,
          { body := .text "old", contentType := "text/plain",
            lastModified := 2, meta := [] })] (S3Key.commits "r1" "a.txt" 2)) :=
  ⟨by decide, by decide,
    restore_roundtrip_preserves_history true
      (some ⟨"alice", some "alice@x", none⟩) 9
      [(S3Key.history "r1" "a.txt" 2,
        { body := .text "old", contentType := "text/plain",
          lastModified := 2, meta := [] })] "r1" "a.txt" 2
      "Restored previous version" (by decide) (by decide)⟩

/-- updatePullRequestStatus never touches the blob store. -/
theorem updatePullRequestStatus_s3 (ambient : Option User) (now : Nat)
    (w : World) (id : String) (status : PRStatus) (comment : Option String) :
    ((updatePullRequestStatus ambient now w id status comment).2).s3 =
      w.s3 := by
  unfold updatePullRequestStatus
  cases ambient with
  | none => rfl
  | some u =>
    cases h : docGet w.pullRequests id with
    | none => simp [h]
    | some pr =>
      simp only [h]
      by_cases hc : pr.targetOwnerId ≠ u.uid ∧ status ≠ PRStatus.closed
      · rw [if_pos hc]
      · rw [if_neg hc]

/-- mergeCopyStep leaves every key other than the three target keys it may
write (current content, history at now, commit metadata at now for its
file) untouched. -/
theorem mergeCopyStep_getObject_ne (u : User) (now : Nat)
    (source target message fileName : String) (acc : Nat × S3State)
    (k : S3Key)
    (h1 : k ≠ .file target fileName)
    (h2 : k ≠ .history target fileName now)
    (h3 : k ≠ .commits target fileName now) :
    getObject (mergeCopyStep true u now source target message fileName
      acc).2 k = getObject acc.2 k := by
  cases hobj : getObject acc.2 (S3Key.file source fileName) with
  | none => simp [mergeCopyStep, getFileContent, downloadFileFromS3, hobj]
  | some o =>
    by_cases hc : o.body.decode = ""
    · simp [mergeCopyStep, getFileContent, downloadFileFromS3, hobj, hc]
    · simp [mergeCopyStep, getFileContent, downloadFileFromS3, hobj, hc,
        uploadFileWithCommit_eq _ _ _ _ _ _ _ hc,
        getObject_putObject_ne _ _ _ _ h3,
        getObject_putObject_ne _ _ _ _ h2,
        getObject_putObject_ne _ _ _ _ h1]

/-- When the source read succeeds with non-falsy content, mergeCopyStep
commits exactly that content into the target. -/
theorem mergeCopyStep_fires (u : User) (now : Nat)
    (source target message fileName : String) (acc : Nat × S3State)
    (o : S3Object)
    (hobj : getObject acc.2 (S3Key.file source fileName) = some o)
    (hc : ¬ o.body.decode = "") :
    (mergeCopyStep true u now source target message fileName acc).2 =
      putObject (putObject (putObject acc.2 (S3Key.file target fileName)
          (uploadedFileObj u now fileName o.body.decode))
        (S3Key.history target fileName now)
        (uploadHistoryObj u now message o.body.decode))
        (S3Key.commits target fileName now)
        (uploadCommitObj u now message) := by
  simp [mergeCopyStep, getFileContent, downloadFileFromS3, hobj, hc,
    uploadFileWithCommit_eq _ _ _ _ _ _ _ hc]

/-- The merge loop leaves every key outside the written key families of its
file list untouched. -/
theorem mergeLoop_getObject_ne (u : User) (now : Nat)
    (source target message : String) :
    ∀ (fs : List String) (acc : Nat × S3State) (k : S3Key),
    (∀ f ∈ fs, k ≠ S3Key.file target f ∧ k ≠ S3Key.history target f now ∧
      k ≠ S3Key.commits target f now) →
    getObject (mergeLoop true u now source target message fs acc).2 k =
      getObject acc.2 k
  | [], _, _, _ => rfl
  | f :: fs, acc, k, h => by
    rw [mergeLoop]
    rw [mergeLoop_getObject_ne u now source target message fs _ k
      (fun g hg => h g (List.mem_cons_of_mem _ hg))]
    exact mergeCopyStep_getObject_ne u now source target message f acc k
      (h f (List.mem_cons_self _ _)).1 (h f (List.mem_cons_self _ _)).2.1
      (h f (List.mem_cons_self _ _)).2.2

/-- Core of C3: the merge loop, run against distinct source and target
repositories, installs in the target — for every listed file whose source
read succeeds with non-falsy content — the source's current content as the
new current content together with its own history snapshot and commit
metadata. -/
theorem mergeLoop_copies (u : User) (now : Nat)
    (source target message : String) (hst : source ≠ target) (σ0 : S3State) :
    ∀ (fs : List String) (acc : Nat × S3State),
    (∀ g, getObject acc.2 (S3Key.file source g) =
      getObject σ0 (S3Key.file source g)) →
    ∀ f ∈ fs, ∀ o, getObject σ0 (S3Key.file source f) = some o →
      ¬ o.body.decode = "" →
      getObject (mergeLoop true u now source target message fs acc).2
          (S3Key.file target f) =
        some (uploadedFileObj u now f o.body.decode) ∧
      getObject (mergeLoop true u now source target message fs acc).2
          (S3Key.history target f now) =
        some (uploadHistoryObj u now message o.body.decode) ∧
      getObject (mergeLoop true u now source target message fs acc).2
          (S3Key.commits target f now) =
        some (uploadCommitObj u now message)
  | [], _, _, f, hf, _, _, _ => absurd hf (List.not_mem_nil f)
  | f0 :: fs, acc, hinv, f, hf, o, hsrc, hdec => by
    have hstep : ∀ g,
        getObject (mergeCopyStep true u now source target message f0 acc).2
          (S3Key.file source g) = getObject σ0 (S3Key.file source g) := by
      intro g
      rw [mergeCopyStep_getObject_ne u now source target message f0 acc _
        (by simp [hst]) (by simp) (by simp)]
      exact hinv g
    rw [mergeLoop]
    by_cases hfr : f ∈ fs
    · exact mergeLoop_copies u now source target message hst σ0 fs _ hstep f
        hfr o hsrc hdec
    · have hff : f = f0 := by
        rcases List.mem_cons.mp hf with h | h
        · exact h
        · exact absurd h hfr
      subst hff
      have hread : getObject acc.2 (S3Key.file source f) = some o := by
        rw [hinv f]; exact hsrc
      have hfire := mergeCopyStep_fires u now source target message f acc o
        hread hdec
      refine ⟨?_, ?_, ?_⟩
      · rw [mergeLoop_getObject_ne u now source target message fs _ _
          (fun g hg => ⟨by
            simp only [ne_eq, S3Key.file.injEq, not_and, true_implies]
            intro hfg
            exact hfr (by rw [hfg]; exact hg), by simp, by simp⟩)]
        rw [hfire, getObject_putObject_ne _ _ _ _ (by simp),
          getObject_putObject_ne _ _ _ _ (by simp), getObject_putObject_self]
      · rw [mergeLoop_getObject_ne u now source target message fs _ _
          (fun g hg => ⟨by simp, by
            simp only [ne_eq, S3Key.history.injEq, not_and, true_implies]
            intro hfg
            exact absurd (by rw [hfg]; exact hg) hfr, by simp⟩)]
        rw [hfire, getObject_putObject_ne _ _ _ _ (by simp),
          getObject_putObject_self]
      · rw [mergeLoop_getObject_ne u now source target message fs _ _
          (fun g hg => ⟨by simp, by simp, by
            simp only [ne_eq, S3Key.commits.injEq, not_and, true_implies]
            intro hfg
            exact absurd (by rw [hfg]; exact hg) hfr⟩)]
        rw [hfire, getObject_putObject_self]

/-- C3: merging an open pull request between distinct repositories, called
by the target owner with a non-empty stored changed-file list, succeeds;
every changed file whose current source content is readable and non-falsy
ends up byte-identical in the target as its own independent commit (current
content plus a fresh commit-metadata blob); per-file copy failures are
tolerated; and the pull request transitions to merged with a notification
appended for its creator. -/
theorem merge_copies_files_sets_merged_and_notifies
    (u : User) (now : Nat) (w : World) (prId : String) (pr : PullRequest)
    (files : List String) (comment : Option String)
    (hpr : docGet w.pullRequests prId = some pr)
    (hstat : pr.status = .«open»)
    (hown : pr.targetOwnerId = u.uid)
    (hcf : pr.changedFiles = some files)
    (hne : files ≠ [])
    (hst : pr.sourceRepoId ≠ pr.targetRepoId) :
    (mergePullRequest true (some u) now w prId comment).1.success = true ∧
    (∀ f ∈ files, ∀ o,
      getObject w.s3 (S3Key.file pr.sourceRepoId f) = some o →
      ¬ o.body.decode = "" →
      (getObject (mergePullRequest true (some u) now w prId comment).2.s3
          (S3Key.file pr.targetRepoId f)).map (fun q => q.body) =
        some (.text o.body.decode) ∧
      (getObject (mergePullRequest true (some u) now w prId comment).2.s3
          (S3Key.commits pr.targetRepoId f now)).map (fun q => q.body) =
        some (.commitJson
          { message := "Merge PR #" ++ prId.take 8 ++ ": " ++ pr.title
            timestamp := now
            author := userLabel u
            previousVersion := none })) ∧
    docGet (mergePullRequest true (some u) now w prId
        comment).2.pullRequests prId =
      some { pr with status := .merged, updatedAt := now } ∧
    (∃ n ∈ (mergePullRequest true (some u) now w prId
        comment).2.notifications,
      n.userId = pr.createdBy.id ∧ n.type = "pull_request_merged") := by
  have hempty : files.isEmpty = false := by
    cases files with
    | nil => exact absurd rfl hne
    | cons a l => rfl
  have hme : mergePullRequest true (some u) now w prId comment =
      (⟨true, none⟩,
        (updatePullRequestStatus (some u) now
          { w with s3 := (mergeLoop true u now pr.sourceRepoId
              pr.targetRepoId
              ("Merge PR #" ++ prId.take 8 ++ ": " ++ pr.title) files
              (0, w.s3)).2 }
          prId .merged comment).2) := by
    simp [mergePullRequest, hpr, hown, hstat, hcf, hempty]
  have hups3 := updatePullRequestStatus_s3 (some u) now
    { w with s3 := (mergeLoop true u now pr.sourceRepoId pr.targetRepoId
        ("Merge PR #" ++ prId.take 8 ++ ": " ++ pr.title) files
        (0, w.s3)).2 } prId .merged comment
  have hupd : updatePullRequestStatus (some u) now
      { w with s3 := (mergeLoop true u now pr.sourceRepoId pr.targetRepoId
          ("Merge PR #" ++ prId.take 8 ++ ": " ++ pr.title) files
          (0, w.s3)).2 } prId .merged comment =
      (⟨true, none⟩,
        { repositories := w.repositories
          pullRequests := docUpdate w.pullRequests prId
            (fun pr' => { pr' with status := .merged, updatedAt := now })
          notifications := w.notifications ++
            [{ userId := pr.createdBy.id
               type := "pull_request_" ++ PRStatus.str .merged
               message := "Your pull request \"" ++ pr.title ++ "\" was " ++
                 PRStatus.str .merged
               details := [("pullRequestId", prId),
                           ("comment", comment.getD ""),
                           ("targetRepoName", pr.targetRepoName)]
               read := false
               createdAt := now
               createdBy := none }]
          s3 := (mergeLoop true u now pr.sourceRepoId pr.targetRepoId
            ("Merge PR #" ++ prId.take 8 ++ ": " ++ pr.title) files
            (0, w.s3)).2 }) := by
    simp [updatePullRequestStatus, hpr, hown]
  refine ⟨by rw [hme], ?_, ?_, ?_⟩
  · intro f hf o hsrc hdec
    have hcp := mergeLoop_copies u now pr.sourceRepoId pr.targetRepoId
      ("Merge PR #" ++ prId.take 8 ++ ": " ++ pr.title) hst w.s3 files
      (0, w.s3) (fun _ => rfl) f hf o hsrc hdec
    rw [hme]
    simp only [hups3]
    constructor
    · rw [hcp.1]
      simp [uploadedFileObj]
    · rw [hcp.2.2]
      simp [uploadCommitObj]
  · rw [hme, hupd]
    simp [docGet_docUpdate_self, hpr]
  · rw [hme, hupd]
    exact ⟨_, List.mem_append_right _ (List.mem_singleton_self _), rfl, rfl⟩

/-- Fixture: an open pull request from src to tgt listing two changed
files. -/
def prMergeFx : PullRequest :=
  { prFx .«open» with changedFiles := some ["a.txt", "b.txt"] }

/-- Fixture: a world holding that pull request and a source store in which
only a.txt exists (so the copy of b.txt fails). -/
def mergeWorldFx : World :=
  ⟨[], [("pr1", prMergeFx)], [],
    [(S3Key.file "src" "a.txt",
      { body := .text "x", contentType := "text/plain", lastModified := 1,
        meta := [] })]⟩

/-- Witness for C3: merging the fixture pull request — where b.txt's copy
fails because the source has no such file — still copies a.txt and flips the
status to merged with a creator notification. -/
theorem merge_copies_files_sets_merged_and_notifies_witness :
    (docGet mergeWorldFx.pullRequests "pr1" = some prMergeFx) ∧
    (prMergeFx.status = .«open») ∧
    (prMergeFx.targetOwnerId = ownerFx.uid) ∧
    (prMergeFx.changedFiles = some ["a.txt", "b.txt"]) ∧
    ((["a.txt", "b.txt"] : List String) ≠ []) ∧
    (prMergeFx.sourceRepoId ≠ prMergeFx.targetRepoId) ∧
    ((mergePullRequest true (some ownerFx) 7 mergeWorldFx "pr1"
      none).1.success = true ∧
    (∀ f ∈ (["a.txt", "b.txt"] : List String), ∀ o,
      getObject mergeWorldFx.s3 (S3Key.file prMergeFx.sourceRepoId f) =
        some o →
      ¬ o.body.decode = "" →
      (getObject (mergePullRequest true (some ownerFx) 7 mergeWorldFx "pr1"
          none).2.s3 (S3Key.file prMergeFx.targetRepoId f)).map
          (fun q => q.body) =
        some (.text o.body.decode) ∧
      (getObject (mergePullRequest true (some ownerFx) 7 mergeWorldFx "pr1"
          none).2.s3 (S3Key.commits prMergeFx.targetRepoId f 7)).map
          (fun q => q.body) =
        some (.commitJson
          { message := "Merge PR #" ++ ("pr1" : String).take 8 ++ ": " ++
              prMergeFx.title
            timestamp := 7
            author := userLabel ownerFx
            previousVersion := none })) ∧
    docGet (mergePullRequest true (some ownerFx) 7 mergeWorldFx "pr1"
        none).2.pullRequests "pr1" =
      some { prMergeFx with status := .merged, updatedAt := 7 } ∧
    (∃ n ∈ (mergePullRequest true (some ownerFx) 7 mergeWorldFx "pr1"
        none).2.notifications,
      n.userId = prMergeFx.createdBy.id ∧ n.type = "pull_request_merged")) :=
  ⟨by decide, by decide, by decide, by decide, by decide, by decide,
    merge_copies_files_sets_merged_and_notifies ownerFx 7 mergeWorldFx "pr1"
      prMergeFx ["a.txt", "b.txt"] none (by decide) (by decide) (by decide)
      (by decide) (by decide) (by decide)⟩

end VC
